import Mathlib

/-!
Verification development for the miniutils repository: a shallow embedding of
the function inliner in miniutils/pragma/inline.py and of the invocation
protocol of the cross-runtime bridge in miniutils/py2_wrap.py, together with
theorems settling the behavioural claims about them.

The Python AST fragment handled by the inliner is embedded as Lean inductive
types; ast.NodeTransformer dispatch is embedded per visitor; stateful pieces
(the current code block, the object store, the subprocess pipe) are passed
explicitly; fallible code returns Except.
-/

namespace Miniutils

/-- Binary operators of the modelled expression fragment (ast.BinOp operators);
only addition is exercised by the inlining scenarios. -/
inductive BOp
  | add
deriving DecidableEq, Repr

/-- Python expression nodes (ast.expr), restricted to the constructs that
pragma/inline.py manipulates. Subscript slices are modelled as bare expressions
(the ast.Index wrapper is erased) and load/store contexts are omitted, since no
claim distinguishes them. The constructor removed stands for a child field into
which ast.NodeTransformer has stored None because the visitor returned None for
that child. -/
inductive Expr
  | name (id : String)
  | num (n : Int)
  | str (s : String)
  | binop (left : Expr) (op : BOp) (right : Expr)
  | subscript (value : Expr) (slice : Expr)
  | dict (keys : List Expr) (values : List Expr)
  | call (func : Expr) (args : List Expr) (keywords : List (Option String × Expr))
  | removed

/-- Python statement nodes (ast.stmt) of the fragment. Exception handlers are
modelled as opaque statement lists in the handlers field of tryS; their contents
are not relevant to any claim. -/
inductive Stmt
  | assign (targets : List Expr) (value : Expr)
  | ret (value : Option Expr)
  | exprS (value : Expr)
  | brk
  | forS (target : Expr) (iter : Expr) (body : List Stmt) (orelse : List Stmt)
  | tryS (body : List Stmt) (handlers : List Stmt) (orelse : List Stmt)
      (finalbody : List Stmt)

/-- Whether the first character list is an initial segment of the second. -/
def startsWithL : List Char → List Char → Bool
  | [], _ => true
  | _ :: _, [] => false
  | a :: as, b :: bs => a == b && startsWithL as bs

/-- Whether the first character list occurs contiguously inside the second. -/
def hasSubL (n : List Char) : List Char → Bool
  | [] => startsWithL n []
  | b :: bs => startsWithL n (b :: bs) || hasSubL n bs

/-- The Python expression needle in haystack on strings: substring containment
(an empty needle is contained in everything). -/
def pyStrIn (needle haystack : String) : Bool :=
  hasSubL needle.data haystack.data

/-- The state of _InlineBodyTransformer (inline.py:53-56), as it is actually
constructed at inline.py:232: func_name receives the callee's display name and
param_names receives the string new_name, so the membership test
node.id in self.param_names at inline.py:59 is Python substring containment on
that string. -/
structure InlineBodyTransformer where
  func_name : String
  param_names : String

/-- inline.py:228: the literal template string assigned to new_name (it is never
formatted; the braces are part of the string). -/
def new_name : String := "_\x7bfname\x7d_\x7bname\x7d"

/-- _InlineBodyTransformer.visit_Name (inline.py:58-62): a name whose id passes
the membership test is replaced by a subscript of the container Name(func_name)
keyed by the NAME node Name(id) (the source passes the nonexistent keyword
expr_context, so no real context field is set; contexts are omitted here). For
any other name the method falls through and returns None, which
ast.NodeTransformer interprets as deleting the node. -/
def visit_Name (t : InlineBodyTransformer) (id : String) : Option Expr :=
  if pyStrIn id t.param_names then
    some (.subscript (.name t.func_name) (.name id))
  else
    none

/-- _InlineBodyTransformer.visit_Return (inline.py:64-72): a return carrying a
value becomes an assignment into the container subscripted by the NAME node
Name(id='return') — not the string constant — followed by Break; the returned
value expression itself is not visited. -/
def visit_Return (t : InlineBodyTransformer) (value : Option Expr) : List Stmt :=
  (match value with
   | some v =>
       [Stmt.assign [Expr.subscript (.name t.func_name) (.name ("return"))] v]
   | none => []) ++ [Stmt.brk]

/-- A child expression field whose visitor returned None: ast.NodeTransformer
stores None into the field, modelled by the removed node. -/
def orRemoved : Option Expr → Expr
  | some e => e
  | none => .removed

mutual

/-- ast.NodeTransformer dispatch of _InlineBodyTransformer over expressions:
visit_Name on Name nodes, generic_visit elsewhere (structural recursion into
children; a None result is dropped from list-valued fields and recorded as
removed in node-valued fields). -/
def ibtExpr (t : InlineBodyTransformer) : Expr → Option Expr
  | .name id => visit_Name t id
  | .num n => some (.num n)
  | .str s => some (.str s)
  | .binop l op r =>
      some (.binop (orRemoved (ibtExpr t l)) op (orRemoved (ibtExpr t r)))
  | .subscript v s =>
      some (.subscript (orRemoved (ibtExpr t v)) (orRemoved (ibtExpr t s)))
  | .dict ks vs => some (.dict (ibtExprList t ks) (ibtExprList t vs))
  | .call f args kws =>
      some (.call (orRemoved (ibtExpr t f)) (ibtExprList t args) (ibtKwList t kws))
  | .removed => some .removed

/-- generic_visit over a list-valued expression field: visit each child, drop
the ones whose visitor returned None. -/
def ibtExprList (t : InlineBodyTransformer) : List Expr → List Expr
  | [] => []
  | e :: es =>
      match ibtExpr t e with
      | none => ibtExprList t es
      | some e' => e' :: ibtExprList t es

/-- generic_visit over keyword nodes: each keyword's value field is visited. -/
def ibtKwList (t : InlineBodyTransformer) :
    List (Option String × Expr) → List (Option String × Expr)
  | [] => []
  | (n, v) :: rest => (n, orRemoved (ibtExpr t v)) :: ibtKwList t rest

end

mutual

/-- ast.NodeTransformer dispatch of _InlineBodyTransformer over statements:
visit_Return on Return nodes, generic_visit elsewhere. -/
def ibtStmt (t : InlineBodyTransformer) : Stmt → List Stmt
  | .ret v => visit_Return t v
  | .assign ts v => [.assign (ibtExprList t ts) (orRemoved (ibtExpr t v))]
  | .exprS e => [.exprS (orRemoved (ibtExpr t e))]
  | .brk => [.brk]
  | .forS tg it b o =>
      [.forS (orRemoved (ibtExpr t tg)) (orRemoved (ibtExpr t it))
        (ibtStmtList t b) (ibtStmtList t o)]
  | .tryS b h o f =>
      [.tryS (ibtStmtList t b) (ibtStmtList t h) (ibtStmtList t o)
        (ibtStmtList t f)]

/-- generic_visit over a statement list: list results are spliced in order
(this also realises the flattening comprehension at inline.py:233-234). -/
def ibtStmtList (t : InlineBodyTransformer) : List Stmt → List Stmt
  | [] => []
  | s :: ss => ibtStmt t s ++ ibtStmtList t ss

end

/-- One formal parameter of a callee signature: its name and, when present, its
declared default. inspect defaults are runtime values spliced directly into the
emitted tree at inline.py:130; they are modelled as literal expressions. -/
structure Param where
  name : String
  default : Option Expr

/-- A Callee Descriptor as built per function at inline.py:236: the function
object's identity, its display name, its signature and its pre-rewritten body. -/
structure Descr where
  fid : Nat
  fname : String
  fsig : List Param
  fbody : List Stmt

/-- inline.py:222-236: per function to inline, take its display name, its
signature and its parsed body (function_ast lives in pragma/core.py, which is
not under src/, so the parsed body is an input here), construct
_InlineBodyTransformer(fname, new_name) — passing new_name where the parameter
name list belongs — then visit each body statement and flatten list results. -/
def buildDescr (fid : Nat) (fname : String) (fsig : List Param)
    (body : List Stmt) : Descr :=
  let t : InlineBodyTransformer := ⟨fname, new_name⟩
  ⟨fid, fname, fsig, ibtStmtList t body⟩

/-- Binding failures raised by inspect.Signature.bind (a TypeError in Python). -/
inductive BindErr
  | tooManyPositional
  | unexpectedKeyword (k : String)
  | multipleValues (k : String)
  | missingArgument (k : String)
deriving DecidableEq, Repr

/-- The embedding of inspect.Signature.bind followed by apply_defaults for
positional-or-keyword parameters (inline.py:117-118): positional arguments fill
parameters left to right, remaining parameters draw from the keyword mapping or
from their declared default; a parameter both positional and keyword, an unknown
keyword, an excess positional argument or a missing required parameter raises.
After apply_defaults the bound (name, value) pairs are in signature order, which
is the iteration order of bound_args.arguments at inline.py:125. -/
def sigBindGo (kwargs : List (String × Expr)) :
    List Param → List Expr → Except BindErr (List (String × Expr))
  | [], [] => .ok []
  | [], _ :: _ => .error .tooManyPositional
  | p :: ps, a :: as =>
      match kwargs.lookup p.name with
      | some _ => .error (.multipleValues p.name)
      | none => do
          let rest ← sigBindGo kwargs ps as
          .ok ((p.name, a) :: rest)
  | p :: ps, [] =>
      match kwargs.lookup p.name with
      | some v => do
          let rest ← sigBindGo kwargs ps []
          .ok ((p.name, v) :: rest)
      | none =>
          match p.default with
          | some d => do
              let rest ← sigBindGo kwargs ps []
              .ok ((p.name, d) :: rest)
          | none => .error (.missingArgument p.name)

/-- Signature binding entry point: a keyword that names no parameter raises;
otherwise bind positionally and by keyword with defaults applied. -/
def sigBind (params : List Param) (args : List Expr)
    (kwargs : List (String × Expr)) : Except BindErr (List (String × Expr)) :=
  match kwargs.find? (fun kv => !((params.map Param.name).contains kv.1)) with
  | some kv => .error (.unexpectedKeyword kv.1)
  | none => sigBindGo kwargs params args

/-- Insert one key into an association list with OrderedDict semantics: an
existing key keeps its position and takes the new value, a new key is appended. -/
def upsert (acc : List (String × Expr)) (k : String) (v : Expr) :
    List (String × Expr) :=
  if acc.any (fun kv => kv.1 == k) then
    acc.map (fun kv => if kv.1 == k then (k, v) else kv)
  else
    acc ++ [(k, v)]

/-- The odict(keywords) conversion at inline.py:117: pairs inserted left to
right, later values overwriting earlier ones for the same key. -/
def odictOfPairs (l : List (String × Expr)) : List (String × Expr) :=
  l.foldl (fun acc kv => upsert acc kv.1 kv.2) []

/-- Auxiliary: a literal dict display with literal string keys, as a mapping. -/
def strKeyPairs : List Expr → List Expr → Option (List (String × Expr))
  | [], [] => some []
  | .str s :: ks, v :: vs => do
      let rest ← strKeyPairs ks vs
      some ((s, v) :: rest)
  | _, _ => none

/-- Modelled from the spec: constant_dict is defined in pragma/core.py, which is
not under src/. Per the spec (4.6, "statically-resolvable dict-splatted keyword
arguments") it resolves the dict-splat value expressions of a call to a concrete
name-to-expression mapping when statically resolvable and reports unresolvable
input as falsy (the caller at inline.py:115 then substitutes the empty dict).
Only literal dict displays with literal string keys are modelled as statically
resolvable. -/
def constant_dict : List Expr → Option (List (String × Expr))
  | [] => some []
  | .dict ks vs :: rest => do
      let here ← strKeyPairs ks vs
      let there ← constant_dict rest
      some (here ++ there)
  | _ => none

/-- Errors escaping the inline transformation (all TypeError in Python). -/
inductive TransErr
  | typeErr (msg : String)
  | bindErr (e : BindErr)
deriving DecidableEq, Repr

/-- inline.py:113-114: the comprehensions iterate node.keywords and unpack each
element as a pair, but ast.keyword objects are not iterable, so in Python this
raises TypeError whenever the matched call carries any keyword argument (named
or dict-splat); only an empty keyword list gets past these lines. -/
def unpackKeywords : List (Option String × Expr) → Except TransErr Unit
  | [] => .ok ()
  | _ :: _ => .error (.typeErr ("cannot unpack non-iterable keyword object"))

/-- Modelled from the spec: resolve_literal and resolve_name_or_attribute live
in pragma/core.py, which is not under src/. Per the spec (4.2 rule 3 and 6,
resolve_symbol) a name is resolved through the active context to the value it
denotes — here the identity of a function object — and anything unresolved
stays dynamic. -/
def resolveTarget (ctxt : List (String × Nat)) : Expr → Option Nat
  | .name id => ctxt.lookup id
  | _ => none

/-- The descriptor loop at inline.py:105-107: the first descriptor whose
function object equals the resolved call target, if any. -/
def findMatch (funs : List Descr) (nodeFun : Option Nat) : Option Descr :=
  funs.find? (fun d => nodeFun == some d.fid)

/-- inline.py:122-123: the container-initialising assignment fname = {}. -/
def containerInit (fname : String) : Stmt :=
  .assign [.name fname] (.dict [] [])

/-- inline.py:125-130: one assignment fname['param'] = value per bound
argument, the key being the string constant Str(param). -/
def paramStore (fname : String) (kv : String × Expr) : Stmt :=
  .assign [.subscript (.name fname) (.str kv.1)] kv.2

/-- inline.py:133-138: the single-iteration wrapper loop
for ____ in range(1): fbody. -/
def wrapperLoop (fbody : List Stmt) : Stmt :=
  .forS (.name ("____")) (.call (.name ("range")) [.num 1] []) fbody []

/-- inline.py:141-143: the replacement expression fname['return'], a subscript
read keyed by the string constant Str('return'). -/
def returnRead (fname : String) : Expr :=
  .subscript (.name fname) (.str ("return"))

/-- InlineTransformer.visit_Call (inline.py:100-146). The current code block —
self.code_blocks[-1], the statement list under construction in the enclosing
nested_visit — is passed in and returned explicitly. An unmatched call is
returned unchanged (without visiting its children, since visit_Call never calls
generic_visit). For a matched call: process the keyword comprehensions (which
raise for any nonempty keyword list), bind the arguments against the signature
with defaults applied, then append the container initialisation, the per-
parameter stores and the wrapper loop to the block and return the
fname['return'] read as the replacement expression. -/
def visit_Call (funs : List Descr) (ctxt : List (String × Nat))
    (block : List Stmt) (func : Expr) (args : List Expr)
    (kws : List (Option String × Expr)) :
    Except TransErr (List Stmt × Expr) :=
  match findMatch funs (resolveTarget ctxt func) with
  | none => .ok (block, .call func args kws)
  | some d => do
      unpackKeywords kws
      let keywords : List (String × Expr) := []
      let kw_dict := (constant_dict []).getD []
      let keywords := keywords ++ kw_dict
      let bound ←
        match sigBind d.fsig args (odictOfPairs keywords) with
        | .ok b => .ok b
        | .error e => .error (.bindErr e)
      .ok (block ++ [containerInit d.fname] ++ bound.map (paramStore d.fname)
             ++ [wrapperLoop d.fbody],
           returnRead d.fname)

/-- The Rewrite Result of visiting one statement: the visitor returned None
(gone), a single node (one), or a list of nodes (many). -/
inductive VisitRes
  | gone
  | one (s : Stmt)
  | many (ss : List Stmt)

/-- Flattening a Rewrite Result into a statement sequence: deletions contribute
nothing, single nodes themselves, lists their elements in order. -/
def flat : VisitRes → List Stmt
  | .gone => []
  | .one s => [s]
  | .many ss => ss

/-- InlineTransformer.nested_visit (inline.py:84-98): a fresh code block is
begun (the lst argument, [] at every call site), each statement of the sequence
is visited — the visitor may first append statements to the open block — and
its Rewrite Result is flattened onto the block. The visitor v is self.visit;
the debugging print has no effect on the result. -/
def nested_visit
    (v : List Stmt → Stmt → Except TransErr (List Stmt × VisitRes)) :
    List Stmt → List Stmt → Except TransErr (List Stmt)
  | lst, [] => .ok lst
  | lst, n :: ns => do
    let (lst', res) ← v lst n
    nested_visit v (lst' ++ flat res) ns

mutual

/-- Modelled from the spec: the default expression visit of the engine.
TrackedContextTransformer lives in pragma/core.py, which is not under src/;
per the spec (4.3) the default case is a recursive structural rewrite that
leaves semantics unchanged except where the pass overrides a node kind — for
InlineTransformer only Call (inline.py:100). A fired visit_Call appends to the
open code block, so the block is threaded through. -/
def itVisitExpr (funs : List Descr) (ctxt : List (String × Nat)) :
    List Stmt → Expr → Except TransErr (List Stmt × Expr)
  | block, .call f args kws => visit_Call funs ctxt block f args kws
  | block, .name id => .ok (block, .name id)
  | block, .num n => .ok (block, .num n)
  | block, .str s => .ok (block, .str s)
  | block, .removed => .ok (block, .removed)
  | block, .binop l op r => do
      let (b1, l') ← itVisitExpr funs ctxt block l
      let (b2, r') ← itVisitExpr funs ctxt b1 r
      .ok (b2, .binop l' op r')
  | block, .subscript v s => do
      let (b1, v') ← itVisitExpr funs ctxt block v
      let (b2, s') ← itVisitExpr funs ctxt b1 s
      .ok (b2, .subscript v' s')
  | block, .dict ks vs => do
      let (b1, ks') ← itVisitExprList funs ctxt block ks
      let (b2, vs') ← itVisitExprList funs ctxt b1 vs
      .ok (b2, .dict ks' vs')

/-- Default visit over a list-valued expression field, left to right. -/
def itVisitExprList (funs : List Descr) (ctxt : List (String × Nat)) :
    List Stmt → List Expr → Except TransErr (List Stmt × List Expr)
  | block, [] => .ok (block, [])
  | block, e :: es => do
      let (b1, e') ← itVisitExpr funs ctxt block e
      let (b2, es') ← itVisitExprList funs ctxt b1 es
      .ok (b2, e' :: es')

end

mutual

/-- InlineTransformer's statement dispatch. Statements without an overriding
visitor get the default structural visit of their expression fields (modelled
from the spec, 4.3, as for itVisitExpr); For and Try have the overriding
visitors of inline.py. Every case returns a single replacement node, threading
the open code block. -/
def itVisitStmt (funs : List Descr) (ctxt : List (String × Nat)) :
    List Stmt → Stmt → Except TransErr (List Stmt × VisitRes)
  | block, .assign ts v => do
      let (b1, ts') ← itVisitExprList funs ctxt block ts
      let (b2, v') ← itVisitExpr funs ctxt b1 v
      .ok (b2, .one (.assign ts' v'))
  | block, .ret none => .ok (block, .one (.ret none))
  | block, .ret (some e) => do
      let (b1, e') ← itVisitExpr funs ctxt block e
      .ok (b1, .one (.ret (some e')))
  | block, .exprS e => do
      let (b1, e') ← itVisitExpr funs ctxt block e
      .ok (b1, .one (.exprS e'))
  | block, .brk => .ok (block, .one .brk)
  | block, .forS tg it b o => do
      -- visit_For (inline.py:166-169): node.body = nested_visit(body);
      -- node.orelse = nested_visit(orelse); then the default visit of the
      -- expression fields (generic_visit, modelled from the spec).
      let b' ← itNested funs ctxt [] b
      let o' ← itNested funs ctxt [] o
      let (b1, tg') ← itVisitExpr funs ctxt block tg
      let (b2, it') ← itVisitExpr funs ctxt b1 it
      .ok (b2, .one (.forS tg' it' b' o'))
  | block, .tryS b h o f => do
      -- visit_Try (inline.py:194-198): the source assigns
      -- node.body = nested_visit(body), then node.body = nested_visit(orelse),
      -- then node.body = nested_visit(finalbody) — all three into the body
      -- field — so the first two results are discarded, the final body field
      -- holds the transformed finalbody, and the orelse and finalbody fields
      -- keep their original sequences.
      let _ ← itNested funs ctxt [] b
      let _ ← itNested funs ctxt [] o
      let bf ← itNested funs ctxt [] f
      .ok (block, .one (.tryS bf h o f))

/-- nested_visit specialised to InlineTransformer's own dispatch (in the source
this is the self.visit call inside nested_visit; the specialisation makes the
mutual recursion structural). -/
def itNested (funs : List Descr) (ctxt : List (String × Nat)) :
    List Stmt → List Stmt → Except TransErr (List Stmt)
  | lst, [] => .ok lst
  | lst, n :: ns => do
      let (lst', res) ← itVisitStmt funs ctxt lst n
      itNested funs ctxt (lst' ++ flat res) ns

end

/-- InlineTransformer.visit_FunctionDef (inline.py:154-156): the decorated
function's statement list is rewritten by nested_visit with a fresh code
block. -/
def transformCaller (funs : List Descr) (ctxt : List (String × Nat))
    (body : List Stmt) : Except TransErr (List Stmt) :=
  itNested funs ctxt [] body

/-- Runtime values of the interpreted Python fragment. Dicts are modelled with
string keys, which covers the inliner's argument containers; range(n) objects
and function objects carry what the fragment needs. -/
inductive Val
  | int (n : Int)
  | str (s : String)
  | vdict (entries : List (String × Val))
  | vrange (n : Int)
  | fn (id : Nat)
  | rangeB
  | noneV

/-- A user function for the interpreter: parameter names and body. -/
structure FnDef where
  params : List String
  body : List Stmt

/-- Runtime errors of the interpreted fragment. Constructs outside the
fragment (non-range iterables, non-string dict keys, aliased container
mutation, try statements) report unsupported rather than being given a
semantics. -/
inductive RErr
  | nameErr (s : String)
  | typeErr (s : String)
  | keyErr (s : String)
  | unsupported (s : String)
  | fuelOut
deriving DecidableEq, Repr

/-- How a statement sequence finished: fell through, broke out of the nearest
loop, or returned a value. -/
inductive Flow
  | norm
  | brk
  | ret (v : Val)

/-- Name lookup: local scope first, then the fixed global scope. -/
def lookupVar (g loc : List (String × Val)) (id : String) : Except RErr Val :=
  match loc.lookup id with
  | some v => .ok v
  | none =>
      match g.lookup id with
      | some v => .ok v
      | none => .error (.nameErr id)

/-- Assignment to a local name: replace an existing binding, else append. -/
def upsertVar (loc : List (String × Val)) (id : String) (v : Val) :
    List (String × Val) :=
  if loc.any (fun kv => kv.1 == id) then
    loc.map (fun kv => if kv.1 == id then (id, v) else kv)
  else
    loc ++ [(id, v)]

/-- Store into a string-keyed dict: replace an existing entry, else append. -/
def dictStore (entries : List (String × Val)) (k : String) (v : Val) :
    List (String × Val) :=
  if entries.any (fun kv => kv.1 == k) then
    entries.map (fun kv => if kv.1 == k then (k, v) else kv)
  else
    entries ++ [(k, v)]

/-- The integers a for-over-range iterates, in order. -/
def rangeList (n : Int) : List Int :=
  (List.range n.toNat).map Int.ofNat

mutual

/-- Expression evaluation for the fragment, with explicit fuel (every recursive
call consumes one unit; concrete runs are given ample fuel). Evaluation order
follows Python: left operand before right, container before key, function
before arguments, arguments left to right. -/
def evalExpr (fns : List (Nat × FnDef)) (g : List (String × Val)) :
    Nat → List (String × Val) → Expr → Except RErr Val
  | 0, _, _ => .error .fuelOut
  | _ + 1, loc, .name id => lookupVar g loc id
  | _ + 1, _, .num n => .ok (.int n)
  | _ + 1, _, .str s => .ok (.str s)
  | fuel + 1, loc, .binop l .add r => do
      let lv ← evalExpr fns g fuel loc l
      let rv ← evalExpr fns g fuel loc r
      match lv, rv with
      | .int a, .int b => .ok (.int (a + b))
      | .str a, .str b => .ok (.str (a ++ b))
      | _, _ => .error (.typeErr ("unsupported operand type for +"))
  | fuel + 1, loc, .subscript v s => do
      let bv ← evalExpr fns g fuel loc v
      let kv ← evalExpr fns g fuel loc s
      match bv, kv with
      | .vdict es, .str k =>
          match es.lookup k with
          | some x => .ok x
          | none => .error (.keyErr k)
      | .vdict _, _ => .error (.unsupported ("non-string dict key"))
      | _, _ => .error (.typeErr ("object is not subscriptable"))
  | fuel + 1, loc, .dict ks vs => do
      let kvals ← evalExprList fns g fuel loc ks
      let vvals ← evalExprList fns g fuel loc vs
      let es ← strEntries kvals vvals
      .ok (.vdict es)
  | fuel + 1, loc, .call f args kws =>
      match kws with
      | _ :: _ => .error (.unsupported ("keyword arguments"))
      | [] => do
          let fv ← evalExpr fns g fuel loc f
          let avs ← evalExprList fns g fuel loc args
          match fv with
          | .rangeB =>
              match avs with
              | [.int n] => .ok (.vrange n)
              | _ => .error (.typeErr ("range() argument"))
          | .fn fid =>
              match fns.lookup fid with
              | none => .error (.typeErr ("object is not callable"))
              | some fd =>
                  if avs.length = fd.params.length then do
                    let (_, fl) ← execStmts fns g fuel (fd.params.zip avs) fd.body
                    match fl with
                    | .ret v => .ok v
                    | _ => .ok .noneV
                  else .error (.typeErr ("positional argument count"))
          | _ => .error (.typeErr ("object is not callable"))
  | _ + 1, _, .removed => .error (.typeErr ("malformed AST node")) 

/-- Evaluate a list of expressions left to right. -/
def evalExprList (fns : List (Nat × FnDef)) (g : List (String × Val)) :
    Nat → List (String × Val) → List Expr → Except RErr (List Val)
  | 0, _, _ => .error .fuelOut
  | _ + 1, _, [] => .ok []
  | fuel + 1, loc, e :: es => do
      let v ← evalExpr fns g fuel loc e
      let vs ← evalExprList fns g fuel loc es
      .ok (v :: vs)

/-- Pair up evaluated dict-display keys and values; the fragment supports only
string keys. -/
def strEntries : List Val → List Val → Except RErr (List (String × Val))
  | [], [] => .ok []
  | .str k :: ks, v :: vs => do
      let rest ← strEntries ks vs
      .ok ((k, v) :: rest)
  | _ :: _, _ :: _ => .error (.unsupported ("non-string dict key"))
  | _, _ => .error (.typeErr ("dict display arity"))

/-- Execute one statement. Assignment evaluates its value first, then resolves
the single target (Python's order); the fragment supports one target that is a
name or a name-based subscript store into a local dict. -/
def execStmt (fns : List (Nat × FnDef)) (g : List (String × Val)) :
    Nat → List (String × Val) → Stmt →
    Except RErr (List (String × Val) × Flow)
  | 0, _, _ => .error .fuelOut
  | fuel + 1, loc, .assign [t] v => do
      let vv ← evalExpr fns g fuel loc v
      assignTo fns g fuel loc t vv
  | _ + 1, _, .assign _ _ =>
      .error (.unsupported ("assignment target list"))
  | _ + 1, loc, .ret none => .ok (loc, .ret .noneV)
  | fuel + 1, loc, .ret (some e) => do
      let v ← evalExpr fns g fuel loc e
      .ok (loc, .ret v)
  | _ + 1, loc, .brk => .ok (loc, .brk)
  | fuel + 1, loc, .exprS e => do
      let _ ← evalExpr fns g fuel loc e
      .ok (loc, .norm)
  | fuel + 1, loc, .forS (.name tgt) it body orelse => do
      let iv ← evalExpr fns g fuel loc it
      match iv with
      | .vrange n => execForRange fns g fuel loc tgt body orelse (rangeList n)
      | _ => .error (.unsupported ("non-range iterable"))
  | _ + 1, _, .forS _ _ _ _ => .error (.unsupported ("loop target"))
  | _ + 1, _, .tryS _ _ _ _ => .error (.unsupported ("try statement"))

/-- Execute a statement sequence until it falls through or control escapes. -/
def execStmts (fns : List (Nat × FnDef)) (g : List (String × Val)) :
    Nat → List (String × Val) → List Stmt →
    Except RErr (List (String × Val) × Flow)
  | 0, _, _ => .error .fuelOut
  | _ + 1, loc, [] => .ok (loc, .norm)
  | fuel + 1, loc, s :: ss => do
      let (loc', fl) ← execStmt fns g fuel loc s
      match fl with
      | .norm => execStmts fns g fuel loc' ss
      | fl => .ok (loc', fl)

/-- Iterate a for-over-range: bind the loop variable, run the body; break exits
the loop skipping the else clause, return propagates, and after a normally
exhausted iteration the else clause runs. -/
def execForRange (fns : List (Nat × FnDef)) (g : List (String × Val)) :
    Nat → List (String × Val) → String → List Stmt → List Stmt → List Int →
    Except RErr (List (String × Val) × Flow)
  | 0, _, _, _, _, _ => .error .fuelOut
  | fuel + 1, loc, _, _, orelse, [] => execStmts fns g fuel loc orelse
  | fuel + 1, loc, tgt, body, orelse, i :: is => do
      let (loc2, fl) ← execStmts fns g fuel (upsertVar loc tgt (.int i)) body
      match fl with
      | .brk => .ok (loc2, .norm)
      | .ret v => .ok (loc2, .ret v)
      | .norm => execForRange fns g fuel loc2 tgt body orelse is

/-- Resolve an assignment target for an already-computed value. A name binds
locally; a subscript target loads its (name-denoted, local) container, then
evaluates its key, then stores — mutating a global or aliased container is
outside the fragment. -/
def assignTo (fns : List (Nat × FnDef)) (g : List (String × Val)) :
    Nat → List (String × Val) → Expr → Val →
    Except RErr (List (String × Val) × Flow)
  | 0, _, _, _ => .error .fuelOut
  | _ + 1, loc, .name id, v => .ok (upsertVar loc id v, .norm)
  | fuel + 1, loc, .subscript (.name d) k, v => do
      let bv ← lookupVar g loc d
      let kv ← evalExpr fns g fuel loc k
      match bv, kv with
      | .vdict es, .str key =>
          match loc.lookup d with
          | some _ => .ok (upsertVar loc d (.vdict (dictStore es key v)), .norm)
          | none => .error (.unsupported ("store into non-local container"))
      | .vdict _, _ => .error (.unsupported ("non-string dict key"))
      | _, _ => .error (.typeErr ("object does not support item assignment"))
  | _ + 1, _, _, _ => .error (.unsupported ("assignment target"))

end

/-- Run a function body to its returned value: a return statement yields its
value, falling through yields None; break at function top level is not valid
Python and is reported. -/
def runBody (fns : List (Nat × FnDef)) (g : List (String × Val)) (fuel : Nat)
    (body : List Stmt) : Except RErr Val := do
  let (_, fl) ← execStmts fns g fuel [] body
  match fl with
  | .ret v => .ok v
  | .norm => .ok .noneV
  | .brk => .error (.unsupported ("break outside loop"))

/-- The fields of a mutable ast.For object. Python syntax nodes have identity,
so for the frame-effect claim the tree is viewed through an explicit object
store mapping node identities to field records. -/
structure ForFields where
  target : Expr
  iter : Expr
  body : List Stmt
  orelse : List Stmt

/-- Overwrite the fields of the object at identity i in the store. -/
def storeSet (store : Nat → Option ForFields) (i : Nat) (f : ForFields) :
    Nat → Option ForFields :=
  fun j => if j = i then some f else store j

/-- InlineTransformer.visit_For (inline.py:166-169) in object-store view:
node.body = self.nested_visit(node.body) overwrites the body field of the
existing object in place, node.orelse likewise, and the method returns the very
same node (generic_visit returns its argument node); nv stands for the pass's
nested_visit. -/
def visit_For_obj (nv : List Stmt → Except TransErr (List Stmt))
    (store : Nat → Option ForFields) (i : Nat) :
    Except TransErr ((Nat → Option ForFields) × Nat) :=
  match store i with
  | none => .error (.typeErr ("dangling node identity"))
  | some f => do
      let b' ← nv f.body
      let store1 := storeSet store i ⟨f.target, f.iter, b', f.orelse⟩
      let o' ← nv f.orelse
      .ok (storeSet store1 i ⟨f.target, f.iter, b', o'⟩, i)

/-- Objects exchanged over the bridge pipe in pickled form
(py2_wrap.py:48-56): the (args, kwargs) pair a call writes, and the
(success, result) pair the subprocess writes back. -/
inductive PyObj
  | callArgs (args : List Val) (kwargs : List (String × Val))
  | reply (success : Bool) (result : Val)

/-- The observable state of the bridge subprocess pipe: everything the wrapper
has written to its stdin, and the replies pending on its stdout. -/
structure Proc where
  sin : List PyObj
  sout : List PyObj

/-- Errors surfaced by an invocation of the wrapped function. -/
inductive BridgeErr
  | runtimeError (result : Val)
  | pipeClosed
  | typeMismatch

/-- MakePython2._write_pkl (py2_wrap.py:48-52): append one pickled object to
the subprocess's stdin (length framing is invisible at this level). -/
def write_pkl (p : Proc) (o : PyObj) : Proc :=
  ⟨p.sin ++ [o], p.sout⟩

/-- MakePython2._read_pkl (py2_wrap.py:54-56): consume the next pickled object
from the subprocess's stdout. -/
def read_pkl : Proc → Except BridgeErr (PyObj × Proc)
  | ⟨_, []⟩ => .error .pipeClosed
  | ⟨sin, o :: rest⟩ => .ok (o, ⟨sin, rest⟩)

/-- MakePython2._wrapped_function (py2_wrap.py:58-64): write the pickled
(args, kwargs) pair, read back a pair and unpack it as (success, result);
return result on success, raise RuntimeError(result) otherwise. -/
def wrapped_function (p : Proc) (args : List Val)
    (kwargs : List (String × Val)) : Except BridgeErr (Val × Proc) := do
  let p1 := write_pkl p (.callArgs args kwargs)
  let (o, p2) ← read_pkl p1
  match o with
  | .reply true r => .ok (r, p2)
  | .reply false r => .error (.runtimeError r)
  | .callArgs _ _ => .error .typeMismatch

/-- Monad bind on Except applied to a success, reduced. -/
@[simp]
theorem ok_bind {ε α β : Type} (a : α) (f : α → Except ε β) :
    ((Except.ok a : Except ε α) >>= f) = f a := rfl

/-- Monad bind on Except applied to an error, reduced. -/
@[simp]
theorem error_bind {ε α β : Type} (e : ε) (f : α → Except ε β) :
    ((Except.error e : Except ε α) >>= f) = .error e := rfl

/-- The scenario callee of spec section 8: def add(a, b): return a + b. -/
def addSig : List Param := [⟨("a"), none⟩, ⟨("b"), none⟩]

/-- The parsed body of the scenario callee add. -/
def addBody : List Stmt :=
  [.ret (some (.binop (.name ("a")) .add (.name ("b"))))]

/-- The descriptor inline(add) pre-builds for the scenario callee. -/
def add_descr : Descr := buildDescr 0 ("add") addSig addBody

/-- The descriptor list of the transformer decorated with inline(add). -/
def inline_funs : List Descr := [add_descr]

/-- The resolution context of the caller: the module-level name add denotes the
function object being inlined. -/
def inline_ctxt : List (String × Nat) := [(("add"), 0)]

/-- The interpreter's function table: the function object add. -/
def add_fns : List (Nat × FnDef) := [(0, ⟨[("a"), ("b")], addBody⟩)]

/-- The interpreter's global scope: the module binds add and the builtin
range. -/
def gEnv : List (String × Val) := [(("add"), .fn 0), (("range"), .rangeB)]

/-- The scenario caller of spec section 8: z = add(2, 3); return z. -/
def caller_body : List Stmt :=
  [.assign [.name ("z")] (.call (.name ("add")) [.num 2, .num 3] []),
   .ret (some (.name ("z")))]

/-- C1: the claim asserts that inlining preserves external behaviour, with the
spec's own scenario (inlining add(a,b) = a+b into z = add(2,3)) as instance. On
the code it fails: the untransformed caller returns 5, while the caller
transformed by the inline pass (descriptor built by inline.py:222-236, call
site rewritten by visit_Call) raises NameError at runtime, because visit_Return
never rewrites the returned expression, so the inlined body still reads the
bare parameter names a and b, which are unbound in the caller. -/
theorem inline_add_caller_not_preserved :
    runBody add_fns gEnv 32 caller_body = .ok (.int 5) ∧
    (transformCaller inline_funs inline_ctxt caller_body).toOption.map
        (runBody add_fns gEnv 32) =
      some (.error (.nameErr ("a"))) :=
  ⟨rfl, rfl⟩

/-- C3: the claim asserts that in the pre-built descriptor body every reference
to a parameter name becomes a container read and every other name is left
unchanged. On the code it fails: the transformer is constructed with the
template string new_name in place of the parameter-name list, so membership is
substring containment in that string — the reference to parameter b is deleted
from the body (visit_Name returns None), while the non-parameter name e is
rewritten into a container read because e occurs in the template string. -/
theorem body_rewrite_wrong :
    (buildDescr 0 ("add") addSig
        [.exprS (.name ("b")), .exprS (.name ("e"))]).fbody =
      [.exprS .removed,
       .exprS (.subscript (.name ("add")) (.name ("e")))] ∧
    addSig.map Param.name = [("a"), ("b")] :=
  ⟨rfl, rfl⟩

/-- C4: the claim asserts that a rewritten return stores its value under the
same reserved key that the call-site replacement reads back. On the code it
fails: the descriptor body built for return 7 stores through the subscript key
Name('return') — a runtime name lookup — while the call-site replacement
returnRead reads the string constant Str('return'); the two key expressions
differ. -/
theorem return_key_mismatch :
    (buildDescr 0 ("add") addSig [.ret (some (.num 7))]).fbody =
      [.assign [.subscript (.name ("add")) (.name ("return"))] (.num 7),
       .brk] ∧
    returnRead ("add") = .subscript (.name ("add")) (.str ("return")) ∧
    (Expr.name ("return")) ≠ (Expr.str ("return")) :=
  ⟨rfl, rfl, fun h => Expr.noConfusion h⟩

/-- C5: the claim asserts that matched call sites bind positional, keyword,
dict-splatted and defaulted arguments. On the code it fails for every keyword
form: inline.py:113-114 unpack each ast.keyword object as a pair, which raises
TypeError, so a matched call carrying a named keyword — and likewise one
carrying a statically-resolvable dict-splat — aborts instead of binding; only
positional arguments and defaults are ever bound. -/
theorem keyword_arguments_crash :
    visit_Call inline_funs inline_ctxt [] (.name ("add")) [.num 2]
        [(some ("b"), .num 3)] =
      .error (.typeErr ("cannot unpack non-iterable keyword object")) ∧
    visit_Call inline_funs inline_ctxt [] (.name ("add")) []
        [(none, .dict [.str ("a"), .str ("b")] [.num 2, .num 3])] =
      .error (.typeErr ("cannot unpack non-iterable keyword object")) :=
  ⟨rfl, rfl⟩

/-- C7: the claim asserts that visit_Try stores each transformed nested
sequence back into its own field. On the code it fails: all three nested_visit
results are assigned to node.body in turn, so for a try with body [break] and
else [1] the output node's body is the transformed (empty) finally sequence —
the transformed body, shown separately to be [break], is dropped — and the
else and finally fields keep their untransformed sequences. -/
theorem visit_Try_misassigns_fields :
    itVisitStmt [] [] [] (.tryS [.brk] [] [.exprS (.num 1)] []) =
      .ok ([], .one (.tryS [] [] [.exprS (.num 1)] [])) ∧
    itNested [] [] [] [Stmt.brk] = .ok [Stmt.brk] ∧
    ([] : List Stmt) ≠ [Stmt.brk] :=
  ⟨rfl, rfl, fun h => List.noConfusion h⟩

/-- C2: as stated the claim fails on keyword-carrying matched call sites (see
the counterexample); amended to call sites whose arguments the transformer
succeeds in binding — which requires a keyword-free call — it holds: visit_Call
appends to the enclosing block, in order, the container initialisation, one
store per bound parameter under the parameter's name in signature order, and
the single-iteration wrapper loop holding the descriptor body, and replaces
the call with the subscript read of the reserved return key. -/
theorem visit_Call_emission (funs : List Descr) (ctxt : List (String × Nat))
    (block : List Stmt) (func : Expr) (args : List Expr) (d : Descr)
    (bound : List (String × Expr))
    (hm : findMatch funs (resolveTarget ctxt func) = some d)
    (hb : sigBind d.fsig args [] = .ok bound) :
    visit_Call funs ctxt block func args [] =
      .ok (block ++ [containerInit d.fname]
             ++ bound.map (paramStore d.fname) ++ [wrapperLoop d.fbody],
           returnRead d.fname) := by
  simp [visit_Call, hm, unpackKeywords, constant_dict, odictOfPairs, hb]

/-- C2 witness: the amended emission statement at the concrete matched call
add(2, 3). -/
theorem visit_Call_emission_witness :
    visit_Call inline_funs inline_ctxt [] (.name ("add")) [.num 2, .num 3] [] =
      .ok ([containerInit ("add"),
            paramStore ("add") (("a"), .num 2),
            paramStore ("add") (("b"), .num 3),
            wrapperLoop add_descr.fbody],
           returnRead ("add")) := by
  have h := visit_Call_emission inline_funs inline_ctxt [] (.name ("add"))
    [.num 2, .num 3] add_descr [(("a"), .num 2), (("b"), .num 3)] rfl rfl
  simpa [add_descr, buildDescr] using h

/-- C2 counterexample: a call site whose resolved target matches the descriptor
but which carries a keyword argument; instead of appending the claimed
statements, visit_Call raises, refuting the claim's universal statement over
matched call sites. -/
theorem visit_Call_keyword_counterexample :
    findMatch inline_funs (resolveTarget inline_ctxt (.name ("add"))) =
      some add_descr ∧
    visit_Call inline_funs inline_ctxt [] (.name ("add")) [.num 4]
        [(some ("b"), .num 5)] =
      .error (.typeErr ("cannot unpack non-iterable keyword object")) :=
  ⟨rfl, rfl⟩

/-- Concatenate the per-statement contributions of a sequence in order. -/
def splice (f : Stmt → List Stmt) : List Stmt → List Stmt
  | [] => []
  | n :: ns => f n ++ splice f ns

/-- C6: when the engine visits a statement sequence, each statement's rewrite
result is flattened into the output in order: for any visitor that appends
extras n to the open block and returns rewrite result res n on statement n, the
block produced by nested_visit is exactly the in-order concatenation, per
statement, of the appended statements and the flattened result — deletions
contribute nothing, single nodes exactly themselves, lists their elements in
order — so the original relative order of surviving and expanded statements is
preserved. -/
theorem nested_visit_flattens
    (v : List Stmt → Stmt → Except TransErr (List Stmt × VisitRes))
    (extras : Stmt → List Stmt) (res : Stmt → VisitRes)
    (h : ∀ lst n, v lst n = .ok (lst ++ extras n, res n)) :
    ∀ nodes lst0, nested_visit v lst0 nodes =
      .ok (lst0 ++ splice (fun n => extras n ++ flat (res n)) nodes) := by
  intro nodes
  induction nodes with
  | nil => intro lst0; simp [nested_visit, splice]
  | cons n ns ih =>
      intro lst0
      rw [nested_visit, h]
      simpa [splice, List.append_assoc] using
        ih (lst0 ++ extras n ++ flat (res n))

/-- A sample visitor for the C6 witness: it appends the visited statement to
the open block and deletes breaks, expands returns, keeps everything else. -/
def sampleRes : Stmt → VisitRes
  | .brk => .gone
  | .ret v => .many [.ret v, .brk]
  | s => .one s

/-- The C6 witness visitor: appends sampleExtras and returns sampleRes. -/
def sampleExtras : Stmt → List Stmt := fun n => [n]

/-- The C6 witness visitor as a function on the open block. -/
def sampleVisit : List Stmt → Stmt → Except TransErr (List Stmt × VisitRes) :=
  fun lst n => .ok (lst ++ sampleExtras n, sampleRes n)

/-- C6 witness: the flattening statement evaluated at a concrete sequence with
a deletion, an expansion and a kept statement. -/
theorem nested_visit_flattens_witness :
    nested_visit sampleVisit [] [Stmt.brk, Stmt.ret none, Stmt.exprS (.num 1)] =
      .ok [Stmt.brk, Stmt.ret none, Stmt.ret none, Stmt.brk,
           Stmt.exprS (.num 1), Stmt.exprS (.num 1)] := by
  have h := nested_visit_flattens sampleVisit sampleExtras sampleRes
    (fun lst n => rfl) [Stmt.brk, Stmt.ret none, Stmt.exprS (.num 1)] []
  simpa [splice, sampleExtras, sampleRes, flat] using h

/-- C8: at a call site whose resolved target matches a descriptor but whose
arguments do not bind against the callee's parameters, signature binding raises
(inline.py:117, before anything is appended to the block), the error propagates
through nested_visit out of the transformation, and the transform of the
function produces an error instead of any tree — no partially inlined result.
Stated for a call in statement position with arbitrary surrounding statements. -/
theorem bind_failure_aborts (funs : List Descr) (ctxt : List (String × Nat))
    (rest : List Stmt) (func : Expr) (args : List Expr) (d : Descr)
    (e : BindErr)
    (hm : findMatch funs (resolveTarget ctxt func) = some d)
    (hb : sigBind d.fsig args [] = .error e) :
    transformCaller funs ctxt (.exprS (.call func args []) :: rest) =
      .error (.bindErr e) := by
  simp [transformCaller, itNested, itVisitStmt, itVisitExpr, visit_Call, hm,
    unpackKeywords, constant_dict, odictOfPairs, hb]

/-- C8 witness: the abort statement evaluated at the concrete matched call
add(2), which misses the required parameter b. -/
theorem bind_failure_aborts_witness :
    transformCaller inline_funs inline_ctxt
        [.exprS (.call (.name ("add")) [.num 2] [])] =
      .error (.bindErr (.missingArgument ("b"))) :=
  bind_failure_aborts inline_funs inline_ctxt [] (.name ("add")) [.num 2]
    add_descr (.missingArgument ("b")) rfl rfl

/-- C9 (amended): visit_For transforms the node's nested sequences and
overwrites the statement-sequence fields of the input node in place, returning
the very same node; an input node thus appears in the output tree even when
changed. -/
theorem visit_For_mutates_in_place
    (nv : List Stmt → Except TransErr (List Stmt))
    (store : Nat → Option ForFields) (i : Nat) (f : ForFields)
    (b' o' : List Stmt)
    (hf : store i = some f) (hb : nv f.body = .ok b')
    (ho : nv f.orelse = .ok o') :
    visit_For_obj nv store i =
      .ok (storeSet store i ⟨f.target, f.iter, b', o'⟩, i) := by
  have hs : storeSet (storeSet store i ⟨f.target, f.iter, b', f.orelse⟩) i
      ⟨f.target, f.iter, b', o'⟩ = storeSet store i ⟨f.target, f.iter, b', o'⟩ := by
    funext j
    by_cases hj : j = i <;> simp [storeSet, hj]
  simp [visit_For_obj, hf, hb, ho, hs]

/-- The For object the C9 statements inspect: its body holds the matched call
add(2, 3). -/
def loopFields : ForFields :=
  ⟨.name ("i"), .name ("xs"),
   [.exprS (.call (.name ("add")) [.num 2, .num 3] [])], []⟩

/-- A one-object store holding loopFields at identity 0. -/
def loopStore : Nat → Option ForFields :=
  fun j => if j = 0 then some loopFields else none

/-- The nested_visit of the inline pass over the loop body, as visit_For
invokes it. -/
def loopNested : List Stmt → Except TransErr (List Stmt) :=
  fun l => itNested inline_funs inline_ctxt [] l

/-- The loop body after the inline pass rewrote the call it contains. -/
def loopNewBody : List Stmt :=
  [containerInit ("add"),
   paramStore ("add") (("a"), .num 2),
   paramStore ("add") (("b"), .num 3),
   wrapperLoop add_descr.fbody,
   .exprS (returnRead ("add"))]

/-- C9 witness: the in-place overwrite statement evaluated on the concrete
store holding the loop node whose body contains add(2, 3). -/
theorem visit_For_mutates_in_place_witness :
    visit_For_obj loopNested loopStore 0 =
      .ok (storeSet loopStore 0 ⟨.name ("i"), .name ("xs"), loopNewBody, []⟩,
           0) :=
  visit_For_mutates_in_place loopNested loopStore 0 loopFields loopNewBody []
    rfl rfl rfl

/-- C9 counterexample: the claim asserts that no node's fields are overwritten
in place and that an input node appears in the output only when unchanged. At
the concrete loop node above, visit_For returns the input node's own identity 0
while the store afterwards holds changed fields at that identity — the body was
rewritten from the single call statement to the five inlined statements — so
the input node was mutated in place and appears, changed, in the output. -/
theorem visit_For_inplace_counterexample :
    (visit_For_obj loopNested loopStore 0).toOption.map Prod.snd = some 0 ∧
    (visit_For_obj loopNested loopStore 0).toOption.map (fun r => r.1 0) =
      some (some ⟨.name ("i"), .name ("xs"), loopNewBody, []⟩) ∧
    loopStore 0 = some loopFields ∧
    loopFields.body ≠ loopNewBody := by
  refine ⟨rfl, rfl, rfl, ?_⟩
  simp [loopFields, loopNewBody]

/-- C10: one invocation of the bridge-wrapped function writes the pickled
(args, kwargs) pair to the subprocess and reads back one (success, result)
reply: on success the invocation returns result, otherwise it raises
RuntimeError carrying result. -/
theorem wrapped_function_protocol (p : Proc) (args : List Val)
    (kwargs : List (String × Val)) (b : Bool) (r : Val) (rest : List PyObj)
    (h : p.sout = .reply b r :: rest) :
    wrapped_function p args kwargs =
      if b then
        .ok (r, ⟨p.sin ++ [.callArgs args kwargs], rest⟩)
      else
        .error (.runtimeError r) := by
  cases p with
  | mk sin sout =>
      subst h
      cases b <;> simp [wrapped_function, write_pkl, read_pkl]

/-- C10 witness: the protocol statement evaluated on a pipe whose next reply
succeeds with 4; the pickled argument pair appears on the subprocess's stdin
and the remaining reply stays pending. -/
theorem wrapped_function_protocol_witness :
    wrapped_function ⟨[], [.reply true (.int 4), .reply false (.str ("boom"))]⟩
        [.int 1] [] =
      .ok (.int 4, ⟨[.callArgs [.int 1] []],
                    [.reply false (.str ("boom"))]⟩) := by
  have h := wrapped_function_protocol
    ⟨[], [.reply true (.int 4), .reply false (.str ("boom"))]⟩
    [.int 1] [] true (.int 4) [.reply false (.str ("boom"))] rfl
  simpa using h

end Miniutils
